import Mathlib

/-!
Shallow embedding of `src/nonlinear_solvers/solvers.py`.

Python floats are modelled by exact rationals (`ℚ`); the claims under study
concern control flow, branching on sign comparisons, error propagation and
call counting, all of which are exact-arithmetic properties.  Python's
float division raises `ZeroDivisionError` when the divisor is exactly zero,
so the one fallible arithmetic operation in the source — `f(x_0) / df(x_0)`
in `newton_raphson` — is embedded with an explicit zero test producing an
error value.  Exceptions are modelled by `Except`; each `raise` site in the
source gets its own constructor carrying exactly the data interpolated into
the exception message, and Python's `except SomeClass` clauses are modelled
by dispatching on the exception's class (`Err.cls`).
-/

deriving instance DecidableEq for Except

/-- The Python exception classes that occur: `ConvergenceError` (defined in
the module), the builtin `ValueError`, the builtin `ZeroDivisionError`, and
any other class a caller-supplied function might raise. -/
inductive ErrClass where
  | convergenceError : ErrClass
  | valueError : ErrClass
  | zeroDivisionError : ErrClass
  | otherClass : ℕ → ErrClass
  deriving DecidableEq, Repr

/-- One constructor per `raise` site in `solvers.py`, carrying the data the
source interpolates into the exception message. -/
inductive Err where
  /-- Raised by `newton_raphson`: `ConvergenceError(f"Failed to converge near {x_0} after {max_its} iterations")`. -/
  | convergenceNear : ℚ → ℕ → Err
  /-- Raised by `bisection`: `ConvergenceError(f"Failed to converge from vals {x_0} and {x_1} after {max_its} iterations")`. -/
  | convergenceFrom : ℚ → ℚ → ℕ → Err
  /-- Raised by `bisection`: `ValueError("We require f(x_0) and f(x_1) to differ in sign")`. -/
  | invalidBracket : Err
  /-- Raised by `solve`: `ConvergenceError("Neither method converged")`. -/
  | neitherConverged : Err
  /-- Raised by `solve`: `ValueError("NR method failed to converge and ...")`. -/
  | incompatibleFallback : Err
  /-- Python's `ZeroDivisionError` from `f(x_0) / df(x_0)` with `df(x_0) == 0`. -/
  | zeroDivision : Err
  deriving DecidableEq, Repr

/-- The Python class of each raised exception. -/
def Err.cls : Err → ErrClass
  | .convergenceNear _ _ => .convergenceError
  | .convergenceFrom _ _ _ => .convergenceError
  | .invalidBracket => .valueError
  | .neitherConverged => .convergenceError
  | .incompatibleFallback => .valueError
  | .zeroDivision => .zeroDivisionError

/-- The loop of `newton_raphson`, by fuel on the remaining iterations of
`for i in range(max_its)`.  `M` is the original `max_its`, which the
final `raise` message reports. -/
def newtonAux (f df : ℚ → ℚ) (eps : ℚ) (M : ℕ) : ℚ → ℕ → Except Err ℚ
  | x, 0 => .error (.convergenceNear x M)
  | x, n + 1 =>
      if df x = 0 then .error .zeroDivision
      else
        let x' := x - f x / df x
        if |f x'| < eps then .ok x'
        else newtonAux f df eps M x' n

/-- The function `newton_raphson(f, df, x_0, eps, max_its)`. -/
def newton_raphson (f df : ℚ → ℚ) (x0 eps : ℚ) (maxIts : ℕ) : Except Err ℚ :=
  newtonAux f df eps maxIts x0 maxIts

/-- The sequence of Newton iterates: `newtonIter f df x0 k` is the value of
`x_0` after `k` updates `x_0 = x_0 - f(x_0)/df(x_0)` (total model: when
`df = 0` the update subtracts `f x / 0 = 0`; theorems about runs that can
divide by zero carry an explicit nonvanishing hypothesis). -/
def newtonIter (f df : ℚ → ℚ) (x0 : ℚ) : ℕ → ℚ
  | 0 => x0
  | k + 1 =>
      let y := newtonIter f df x0 k
      y - f y / df y

/-- The loop of `bisection`, by fuel on the remaining iterations.  `M` is
the original `max_its` reported in the final `raise` message. -/
def bisectAux (f : ℚ → ℚ) (eps : ℚ) (M : ℕ) : ℚ → ℚ → ℕ → Except Err ℚ
  | a, b, 0 => .error (.convergenceFrom a b M)
  | a, b, n + 1 =>
      let m := (a + b) / 2
      if |f m| < eps then .ok m
      else if f m * f a > 0 then bisectAux f eps M m b n
      else if f m * f a < 0 then bisectAux f eps M a m n
      else bisectAux f eps M a b n

/-- The function `bisection(f, x_0, x_1, eps, max_its)`. -/
def bisection (f : ℚ → ℚ) (x0 x1 eps : ℚ) (maxIts : ℕ) : Except Err ℚ :=
  if f x0 * f x1 > 0 then .error .invalidBracket
  else bisectAux f eps maxIts x0 x1 maxIts

/-- One loop body of `bisection` viewed as a bracket transformer (the early
`return` aside): replace `x_0` by the midpoint when `f(x_mid)*f(x_0) > 0`,
replace `x_1` when `< 0`, and leave the bracket unchanged otherwise. -/
def bstep (f : ℚ → ℚ) (p : ℚ × ℚ) : ℚ × ℚ :=
  let m := (p.1 + p.2) / 2
  if f m * f p.1 > 0 then (m, p.2)
  else if f m * f p.1 < 0 then (p.1, m)
  else p

/-- The function `solve(f, df, x_0, x_1, eps, max_its_n, max_its_b)`, instrumented with a
flag recording whether the `bisection` fallback was invoked.  The
`try/except` clauses dispatch on the raised exception's Python class. -/
def solveT (f df : ℚ → ℚ) (x0 x1 eps : ℚ) (maxItsN maxItsB : ℕ) :
    Except Err ℚ × Bool :=
  match newton_raphson f df x0 eps maxItsN with
  | .ok x => (.ok x, false)
  | .error e =>
      if e.cls = .convergenceError then
        match bisection f x0 x1 eps maxItsB with
        | .ok x => (.ok x, true)
        | .error e' =>
            if e'.cls = .convergenceError then (.error .neitherConverged, true)
            else if e'.cls = .valueError then (.error .incompatibleFallback, true)
            else (.error e', true)
      else (.error e, false)

/-- The result of `solve(f, df, x_0, x_1, eps, max_its_n, max_its_b)`. -/
def solve (f df : ℚ → ℚ) (x0 x1 eps : ℚ) (maxItsN maxItsB : ℕ) : Except Err ℚ :=
  (solveT f df x0 x1 eps maxItsN maxItsB).1

/-- The loop of `newton_raphson` instrumented with a running count of the
invocations of `f` and `df` combined: each full iteration evaluates
`f(x_0)`, `df(x_0)` (the update) and `f(x_0)` again (the tolerance test);
an iteration aborted by `ZeroDivisionError` has evaluated `f(x_0)` and
`df(x_0)` before the division raises. -/
def newtonAuxC (f df : ℚ → ℚ) (eps : ℚ) (M : ℕ) : ℚ → ℕ → ℕ → Except Err ℚ × ℕ
  | x, 0, c => (.error (.convergenceNear x M), c)
  | x, n + 1, c =>
      if df x = 0 then (.error .zeroDivision, c + 2)
      else
        let x' := x - f x / df x
        if |f x'| < eps then (.ok x', c + 3)
        else newtonAuxC f df eps M x' n (c + 3)

/-- Runs `newton_raphson` together with the total number of `f`/`df` invocations. -/
def newton_raphsonC (f df : ℚ → ℚ) (x0 eps : ℚ) (maxIts : ℕ) : Except Err ℚ × ℕ :=
  newtonAuxC f df eps maxIts x0 maxIts 0

/-- The loop of `bisection` instrumented with the list of arguments `f` is
applied to, in evaluation order: the tolerance test evaluates `f(x_mid)`;
each `elif` guard re-evaluates `f(x_mid)` and `f(x_0)`. -/
def bisectAuxT (f : ℚ → ℚ) (eps : ℚ) (M : ℕ) :
    ℚ → ℚ → ℕ → List ℚ → Except Err ℚ × List ℚ
  | a, b, 0, t => (.error (.convergenceFrom a b M), t)
  | a, b, n + 1, t =>
      let m := (a + b) / 2
      if |f m| < eps then (.ok m, t ++ [m])
      else if f m * f a > 0 then bisectAuxT f eps M m b n (t ++ [m, m, a])
      else if f m * f a < 0 then bisectAuxT f eps M a m n (t ++ [m, m, a, m, a])
      else bisectAuxT f eps M a b n (t ++ [m, m, a, m, a])

/-- Runs `bisection` together with the list of arguments `f` is applied to; the
precondition check `f(x_0) * f(x_1) > 0` evaluates `f` at `x_0` then `x_1`,
once, before any iteration. -/
def bisectionT (f : ℚ → ℚ) (x0 x1 eps : ℚ) (maxIts : ℕ) : Except Err ℚ × List ℚ :=
  if f x0 * f x1 > 0 then (.error .invalidBracket, [x0, x1])
  else bisectAuxT f eps maxIts x0 x1 maxIts [x0, x1]

/-- Exceptions in the model where the caller-supplied `f` and `df` may
themselves raise: either an exception raised by the solver code, or one
raised inside `f`/`df`, tagged with its Python class and an identifying
payload. -/
inductive Exn where
  | solver : Err → Exn
  | user : ErrClass → ℕ → Exn
  deriving DecidableEq, Repr

/-- The Python class of an exception in the effectful model. -/
def Exn.cls : Exn → ErrClass
  | .solver e => e.cls
  | .user c _ => c

/-- The loop of `newton_raphson` for caller-supplied functions that may
raise: the solver installs no handler, so an exception from `f` or `df`
propagates out of the loop unmodified. -/
def newtonAuxE (f df : ℚ → Except Exn ℚ) (eps : ℚ) (M : ℕ) : ℚ → ℕ → Except Exn ℚ
  | x, 0 => .error (.solver (.convergenceNear x M))
  | x, n + 1 =>
      match f x with
      | .error u => .error u
      | .ok fx =>
          match df x with
          | .error u => .error u
          | .ok dfx =>
              if dfx = 0 then .error (.solver .zeroDivision)
              else
                let x' := x - fx / dfx
                match f x' with
                | .error u => .error u
                | .ok fx' =>
                    if |fx'| < eps then .ok x'
                    else newtonAuxE f df eps M x' n

/-- The function `newton_raphson` for caller-supplied functions that may raise. -/
def newton_raphsonE (f df : ℚ → Except Exn ℚ) (x0 eps : ℚ) (maxIts : ℕ) :
    Except Exn ℚ :=
  newtonAuxE f df eps maxIts x0 maxIts

/-- The loop of `bisection` for a caller-supplied function that may raise. -/
def bisectAuxE (f : ℚ → Except Exn ℚ) (eps : ℚ) (M : ℕ) : ℚ → ℚ → ℕ → Except Exn ℚ
  | a, b, 0 => .error (.solver (.convergenceFrom a b M))
  | a, b, n + 1 =>
      let m := (a + b) / 2
      match f m with
      | .error u => .error u
      | .ok fm =>
          if |fm| < eps then .ok m
          else
            match f m, f a with
            | .error u, _ => .error u
            | .ok _, .error u => .error u
            | .ok fm2, .ok fa =>
                if fm2 * fa > 0 then bisectAuxE f eps M m b n
                else
                  match f m, f a with
                  | .error u, _ => .error u
                  | .ok _, .error u => .error u
                  | .ok fm3, .ok fa2 =>
                      if fm3 * fa2 < 0 then bisectAuxE f eps M a m n
                      else bisectAuxE f eps M a b n

/-- The function `bisection` for a caller-supplied function that may raise. -/
def bisectionE (f : ℚ → Except Exn ℚ) (x0 x1 eps : ℚ) (maxIts : ℕ) : Except Exn ℚ :=
  match f x0 with
  | .error u => .error u
  | .ok a =>
      match f x1 with
      | .error u => .error u
      | .ok b =>
          if a * b > 0 then .error (.solver .invalidBracket)
          else bisectAuxE f eps maxIts x0 x1 maxIts

/-- The function `solve` for caller-supplied functions that may raise.  The `except`
clauses catch by Python class: the outer `try` catches only
`ConvergenceError`; the inner one catches `ConvergenceError` and then
`ValueError`; anything else propagates unmodified. -/
def solveE (f df : ℚ → Except Exn ℚ) (x0 x1 eps : ℚ) (maxItsN maxItsB : ℕ) :
    Except Exn ℚ :=
  match newton_raphsonE f df x0 eps maxItsN with
  | .ok x => .ok x
  | .error e =>
      if e.cls = .convergenceError then
        match bisectionE f x0 x1 eps maxItsB with
        | .ok x => .ok x
        | .error e' =>
            if e'.cls = .convergenceError then .error (.solver .neitherConverged)
            else if e'.cls = .valueError then .error (.solver .incompatibleFallback)
            else .error e'
      else .error e

theorem mid_mem (a b : ℚ) : min a b ≤ (a + b) / 2 ∧ (a + b) / 2 ≤ max a b := by
  constructor
  · have h1 := min_le_left a b
    have h2 := min_le_right a b
    linarith
  · have h1 := le_max_left a b
    have h2 := le_max_right a b
    linarith

theorem mid_mem_strict (a b : ℚ) (h : a ≠ b) :
    min a b < (a + b) / 2 ∧ (a + b) / 2 < max a b := by
  have hlt : min a b < max a b := min_lt_max.mpr h
  have hs : min a b + max a b = a + b := min_add_max a b
  constructor <;> linarith

theorem mid_ne (a b : ℚ) (h : a ≠ b) : (a + b) / 2 ≠ a ∧ (a + b) / 2 ≠ b := by
  constructor <;> intro h' <;> apply h <;> linarith

theorem strict_between_ne (x0 x1 y : ℚ) (h1 : min x0 x1 < y) (h2 : y < max x0 x1) :
    y ≠ x0 ∧ y ≠ x1 := by
  rcases le_total x0 x1 with h | h
  · rw [min_eq_left h] at h1
    rw [max_eq_right h] at h2
    exact ⟨ne_of_gt h1, ne_of_lt h2⟩
  · rw [min_eq_right h] at h1
    rw [max_eq_left h] at h2
    exact ⟨ne_of_lt h2, ne_of_gt h1⟩

theorem bisectAux_ok_mem (f : ℚ → ℚ) (eps : ℚ) (M : ℕ) :
    ∀ (n : ℕ) (a b y : ℚ), bisectAux f eps M a b n = .ok y →
      |f y| < eps ∧ min a b ≤ y ∧ y ≤ max a b := by
  intro n
  induction n with
  | zero =>
      intro a b y h
      simp [bisectAux] at h
  | succ n ih =>
      intro a b y h
      simp only [bisectAux] at h
      split_ifs at h with h1 h2 h3
      · rw [Except.ok.injEq] at h
        subst h
        exact ⟨h1, (mid_mem a b).1, (mid_mem a b).2⟩
      · obtain ⟨ht, hy1, hy2⟩ := ih _ _ _ h
        refine ⟨ht, ?_, ?_⟩
        · exact le_trans (le_min (mid_mem a b).1 (min_le_right a b)) hy1
        · exact le_trans hy2 (max_le (mid_mem a b).2 (le_max_right a b))
      · obtain ⟨ht, hy1, hy2⟩ := ih _ _ _ h
        refine ⟨ht, ?_, ?_⟩
        · exact le_trans (le_min (min_le_left a b) (mid_mem a b).1) hy1
        · exact le_trans hy2 (max_le (le_max_left a b) (mid_mem a b).2)
      · exact ih _ _ _ h

theorem bisectAux_ok_strict (f : ℚ → ℚ) (eps : ℚ) (M : ℕ) :
    ∀ (n : ℕ) (a b y : ℚ), a ≠ b → bisectAux f eps M a b n = .ok y →
      min a b < y ∧ y < max a b := by
  intro n
  induction n with
  | zero =>
      intro a b y _ h
      simp [bisectAux] at h
  | succ n ih =>
      intro a b y hne h
      simp only [bisectAux] at h
      split_ifs at h with h1 h2 h3
      · rw [Except.ok.injEq] at h
        subst h
        exact mid_mem_strict a b hne
      · obtain ⟨hy1, hy2⟩ := ih _ _ _ (mid_ne a b hne).2 h
        refine ⟨?_, ?_⟩
        · exact lt_of_le_of_lt (le_min (le_of_lt (mid_mem_strict a b hne).1) (min_le_right a b)) hy1
        · exact lt_of_lt_of_le hy2 (max_le (le_of_lt (mid_mem_strict a b hne).2) (le_max_right a b))
      · obtain ⟨hy1, hy2⟩ := ih _ _ _ (Ne.symm (mid_ne a b hne).1) h
        refine ⟨?_, ?_⟩
        · exact lt_of_le_of_lt (le_min (min_le_left a b) (le_of_lt (mid_mem_strict a b hne).1)) hy1
        · exact lt_of_lt_of_le hy2 (max_le (le_max_left a b) (le_of_lt (mid_mem_strict a b hne).2))
      · exact ih _ _ _ hne h

theorem bstep_mem (f : ℚ → ℚ) (lo hi : ℚ) (p : ℚ × ℚ) (hne : p.1 ≠ p.2)
    (h1 : lo ≤ p.1) (h2 : p.1 ≤ hi) (h3 : lo ≤ p.2) (h4 : p.2 ≤ hi) :
    (bstep f p).1 ≠ (bstep f p).2 ∧
    lo ≤ (bstep f p).1 ∧ (bstep f p).1 ≤ hi ∧
    lo ≤ (bstep f p).2 ∧ (bstep f p).2 ≤ hi := by
  have hm1 : lo ≤ (p.1 + p.2) / 2 := by linarith
  have hm2 : (p.1 + p.2) / 2 ≤ hi := by linarith
  simp only [bstep]
  split_ifs with ha hb
  · exact ⟨(mid_ne p.1 p.2 hne).2, hm1, hm2, h3, h4⟩
  · exact ⟨Ne.symm (mid_ne p.1 p.2 hne).1, h1, h2, hm1, hm2⟩
  · exact ⟨hne, h1, h2, h3, h4⟩

theorem bstep_sign (f : ℚ → ℚ) (p : ℚ × ℚ) (h : f p.1 * f p.2 < 0) :
    f (bstep f p).1 * f (bstep f p).2 < 0 := by
  simp only [bstep]
  split_ifs with ha hb
  · show f ((p.1 + p.2) / 2) * f p.2 < 0
    rcases mul_pos_iff.mp ha with ⟨hm, h1⟩ | ⟨hm, h1⟩
    · rcases mul_neg_iff.mp h with ⟨h1', h2⟩ | ⟨h1', h2⟩
      · exact mul_neg_of_pos_of_neg hm h2
      · linarith
    · rcases mul_neg_iff.mp h with ⟨h1', h2⟩ | ⟨h1', h2⟩
      · linarith
      · exact mul_neg_of_neg_of_pos hm h2
  · show f p.1 * f ((p.1 + p.2) / 2) < 0
    rw [mul_comm]
    exact hb
  · exact h

theorem bstep_iterate_mem (f : ℚ → ℚ) (x0 x1 : ℚ) (hne : x0 ≠ x1) : ∀ n : ℕ,
    ((bstep f)^[n] (x0, x1)).1 ≠ ((bstep f)^[n] (x0, x1)).2 ∧
    min x0 x1 ≤ ((bstep f)^[n] (x0, x1)).1 ∧ ((bstep f)^[n] (x0, x1)).1 ≤ max x0 x1 ∧
    min x0 x1 ≤ ((bstep f)^[n] (x0, x1)).2 ∧ ((bstep f)^[n] (x0, x1)).2 ≤ max x0 x1 := by
  intro n
  induction n with
  | zero =>
      simp only [Function.iterate_zero_apply]
      exact ⟨hne, min_le_left x0 x1, le_max_left x0 x1, min_le_right x0 x1,
        le_max_right x0 x1⟩
  | succ n ih =>
      rw [Function.iterate_succ_apply']
      obtain ⟨h1, h2, h3, h4, h5⟩ := ih
      exact bstep_mem f (min x0 x1) (max x0 x1) _ h1 h2 h3 h4 h5

/-- C1: for bracketing endpoints (`f(x0)·f(x1) < 0`), whenever `bisection`
returns a value `x*` rather than raising, that value satisfies
`|f(x*)| < eps` and lies within `[min(x0,x1), max(x0,x1)]`. -/
theorem bisection_ok_tol_and_bracket (f : ℚ → ℚ) (x0 x1 eps : ℚ) (M : ℕ) (y : ℚ)
    (hbr : f x0 * f x1 < 0) (h : bisection f x0 x1 eps M = .ok y) :
    |f y| < eps ∧ min x0 x1 ≤ y ∧ y ≤ max x0 x1 := by
  rw [bisection] at h
  split_ifs at h with h1
  exact bisectAux_ok_mem f eps M M x0 x1 y h

/-- Witness for C1: `bisection` on `f = id` over `[-1, 1]` returns `0`. -/
theorem bisection_ok_tol_and_bracket_witness :
    |(fun x : ℚ => x) 0| < 1/2 ∧ min (-1 : ℚ) 1 ≤ 0 ∧ (0 : ℚ) ≤ max (-1 : ℚ) 1 :=
  bisection_ok_tol_and_bracket (fun x => x) (-1) 1 (1/2) 3 0 (by norm_num)
    (by norm_num [bisection, bisectAux, abs_lt])

/-- C5 counterexample: `f = id`, `x0 = 0`, `x1 = 1` passes the entry
precondition (the product is `0`, not `> 0`) and enters iteration — the run
below exhausts its budget rather than raising InvalidBracket — yet at the
first iteration `f(x0)·f(x1) = 0` is not strictly negative, so the strict
bracket invariant does not hold for all inputs passing the precondition. -/
theorem bisection_nonstrict_entry_cex :
    bisection (fun x : ℚ => x) 0 1 (1/4) 1 = .error (.convergenceFrom 0 1 1) ∧
    ¬ ((fun x : ℚ => x) ((bstep (fun x : ℚ => x))^[0] (0, 1)).1 *
        (fun x : ℚ => x) ((bstep (fun x : ℚ => x))^[0] (0, 1)).2 < 0) := by
  constructor
  · norm_num [bisection, bisectAux, abs_lt]
  · norm_num

/-- C5 (amended): when the entry values have strictly opposite sign
(`f(x0)·f(x1) < 0`), every iteration of the loop sees a strictly
bracketing pair, and every endpoint replacement preserves the strict
invariant; the loop body of `bisection` is exactly the tolerance test
followed by the bracket transformer `bstep`. -/
theorem bisection_strict_bracket_invariant (f : ℚ → ℚ) (x0 x1 eps : ℚ) (M : ℕ)
    (hbr : f x0 * f x1 < 0) :
    (∀ n : ℕ, f ((bstep f)^[n] (x0, x1)).1 * f ((bstep f)^[n] (x0, x1)).2 < 0) ∧
    (∀ p : ℚ × ℚ, f p.1 * f p.2 < 0 → f (bstep f p).1 * f (bstep f p).2 < 0) ∧
    (∀ (a b : ℚ) (n : ℕ), bisectAux f eps M a b (n + 1) =
        if |f ((a + b) / 2)| < eps then .ok ((a + b) / 2)
        else bisectAux f eps M (bstep f (a, b)).1 (bstep f (a, b)).2 n) := by
  refine ⟨?_, fun p => bstep_sign f p, ?_⟩
  · intro n
    induction n with
    | zero => simpa using hbr
    | succ n ih =>
        rw [Function.iterate_succ_apply']
        exact bstep_sign f _ ih
  · intro a b n
    by_cases h1 : |f ((a + b) / 2)| < eps
    · simp [bisectAux, h1]
    · by_cases h2 : f ((a + b) / 2) * f a > 0
      · simp [bisectAux, bstep, h1, h2]
      · by_cases h3 : f ((a + b) / 2) * f a < 0
        · simp [bisectAux, bstep, h1, h2, h3]
        · simp [bisectAux, bstep, h1, h2, h3]

/-- Witness for C5 at `f = id` on `(-1, 1)`: the bracket after one
iteration still has strictly opposite signs. -/
theorem bisection_strict_bracket_invariant_witness :
    (fun x : ℚ => x) ((bstep (fun x : ℚ => x))^[1] (-1, 1)).1 *
      (fun x : ℚ => x) ((bstep (fun x : ℚ => x))^[1] (-1, 1)).2 < 0 :=
  (bisection_strict_bracket_invariant (fun x => x) (-1) 1 (1/2) 3 (by norm_num)).1 1

/-- C6: in an iteration where `f(x_mid)·f(x_0) = 0` exactly but the
tolerance is not met, neither replacement branch fires: the loop consumes
one iteration of fuel with the bracket unchanged, and the bracket
transformer is the identity there. -/
theorem bisection_stall_iteration (f : ℚ → ℚ) (eps : ℚ) (M : ℕ) (a b : ℚ) (n : ℕ)
    (htol : ¬ |f ((a + b) / 2)| < eps) (hz : f ((a + b) / 2) * f a = 0) :
    bisectAux f eps M a b (n + 1) = bisectAux f eps M a b n ∧
    bstep f (a, b) = (a, b) := by
  constructor
  · simp [bisectAux, htol, hz]
  · simp [bstep, hz]

/-- Witness for C6: `f = id` on `(0, 1)` with `eps = 1/4` stalls. -/
theorem bisection_stall_iteration_witness :
    bisectAux (fun x : ℚ => x) (1/4) 7 0 1 4 = bisectAux (fun x : ℚ => x) (1/4) 7 0 1 3 ∧
    bstep (fun x : ℚ => x) (0, 1) = (0, 1) :=
  bisection_stall_iteration (fun x => x) (1/4) 7 0 1 3 (by norm_num [abs_lt]) (by norm_num)

/-- C10 counterexample: with the degenerate bracket `x0 = x1 = 0` and
`f = id`, the entry precondition passes (`f(0)·f(0) = 0`), the first
midpoint is `0 = x0` itself, the tolerance is tested there, and `bisection`
returns the supplied endpoint `x0 = 0`. -/
theorem bisection_returns_endpoint_degenerate_cex :
    bisection (fun x : ℚ => x) 0 0 1 1 = .ok 0 ∧
    (bisectionT (fun x : ℚ => x) 0 0 1 1).2 = [0, 0, 0] := by
  constructor
  · norm_num [bisection, bisectAux, abs_lt]
  · norm_num [bisectionT, bisectAuxT, abs_lt]

/-- C10 (amended): for distinct endpoints `x0 ≠ x1`, `bisection` only ever
tests the tolerance at midpoints lying strictly inside the open interval
(in particular never at `x0` or `x1`), and any returned value lies strictly
inside the bracket, so it is never `x0` or `x1` themselves; moreover the
call can exhaust its budget and raise ConvergenceFailure despite an exact
root at an endpoint (`f = id` on `[0, 1]`). -/
theorem bisection_endpoints_never_tested (f : ℚ → ℚ) (x0 x1 eps : ℚ) (M : ℕ)
    (hne : x0 ≠ x1) :
    (∀ y, bisection f x0 x1 eps M = .ok y →
        min x0 x1 < y ∧ y < max x0 x1 ∧ y ≠ x0 ∧ y ≠ x1) ∧
    (∀ n : ℕ,
        min x0 x1 < (((bstep f)^[n] (x0, x1)).1 + ((bstep f)^[n] (x0, x1)).2) / 2 ∧
        (((bstep f)^[n] (x0, x1)).1 + ((bstep f)^[n] (x0, x1)).2) / 2 < max x0 x1 ∧
        (((bstep f)^[n] (x0, x1)).1 + ((bstep f)^[n] (x0, x1)).2) / 2 ≠ x0 ∧
        (((bstep f)^[n] (x0, x1)).1 + ((bstep f)^[n] (x0, x1)).2) / 2 ≠ x1) ∧
    bisection (fun x : ℚ => x) 0 1 (1/4) 2 = .error (.convergenceFrom 0 1 2) := by
  refine ⟨?_, ?_, by norm_num [bisection, bisectAux, abs_lt]⟩
  · intro y h
    rw [bisection] at h
    split_ifs at h with h1
    obtain ⟨hy1, hy2⟩ := bisectAux_ok_strict f eps M M x0 x1 y hne h
    exact ⟨hy1, hy2, strict_between_ne x0 x1 y hy1 hy2⟩
  · intro n
    obtain ⟨h1, h2, h3, h4, h5⟩ := bstep_iterate_mem f x0 x1 hne n
    obtain ⟨hm1, hm2⟩ := mid_mem_strict _ _ h1
    have hlo : min x0 x1 < (((bstep f)^[n] (x0, x1)).1 + ((bstep f)^[n] (x0, x1)).2) / 2 :=
      lt_of_le_of_lt (le_min h2 h4) hm1
    have hhi : (((bstep f)^[n] (x0, x1)).1 + ((bstep f)^[n] (x0, x1)).2) / 2 < max x0 x1 :=
      lt_of_lt_of_le hm2 (max_le h3 h5)
    exact ⟨hlo, hhi, strict_between_ne x0 x1 _ hlo hhi⟩

/-- Witness for C10 (amended) at `f = id` on `[-1, 1]`: the returned root
`0` lies strictly inside the bracket and differs from both endpoints. -/
theorem bisection_endpoints_never_tested_witness :
    min (-1 : ℚ) 1 < 0 ∧ (0 : ℚ) < max (-1 : ℚ) 1 ∧ (0 : ℚ) ≠ -1 ∧ (0 : ℚ) ≠ 1 :=
  (bisection_endpoints_never_tested (fun x : ℚ => x) (-1) 1 (1/2) 3 (by norm_num)).1 0
    (by norm_num [bisection, bisectAux, abs_lt])

theorem newtonIter_shift (f df : ℚ → ℚ) (x : ℚ) : ∀ k : ℕ,
    newtonIter f df (x - f x / df x) k = newtonIter f df x (k + 1) := by
  intro k
  induction k with
  | zero => simp [newtonIter]
  | succ k ih => simp only [newtonIter, ih]

theorem newtonAux_ok (f df : ℚ → ℚ) (eps : ℚ) (M : ℕ) : ∀ (n : ℕ) (x y : ℚ),
    newtonAux f df eps M x n = .ok y →
    ∃ k, k < n ∧ y = newtonIter f df x (k + 1) ∧ |f y| < eps ∧
      ∀ j, j < k → ¬ |f (newtonIter f df x (j + 1))| < eps := by
  intro n
  induction n with
  | zero =>
      intro x y h
      simp [newtonAux] at h
  | succ n ih =>
      intro x y h
      simp only [newtonAux] at h
      split_ifs at h with h0 h1
      · rw [Except.ok.injEq] at h
        refine ⟨0, Nat.succ_pos n, ?_, ?_, fun j hj => absurd hj (Nat.not_lt_zero j)⟩
        · rw [← h]
          simp [newtonIter]
        · rw [← h]
          exact h1
      · obtain ⟨k, hk, hy, ht, hmin⟩ := ih _ _ h
        refine ⟨k + 1, Nat.succ_lt_succ hk, ?_, ht, ?_⟩
        · rw [hy, newtonIter_shift]
        · intro j hj
          rcases j with _ | j
          · have h1' : newtonIter f df x 1 = x - f x / df x := by simp [newtonIter]
            rw [h1']
            exact h1
          · have := hmin j (Nat.lt_of_succ_lt_succ hj)
            rw [newtonIter_shift] at this
            exact this

theorem newtonAux_error (f df : ℚ → ℚ) (eps : ℚ) (M : ℕ) : ∀ (n : ℕ) (x : ℚ) (e : Err),
    (∀ k, k < n → df (newtonIter f df x k) ≠ 0) →
    newtonAux f df eps M x n = .error e →
    e = .convergenceNear (newtonIter f df x n) M ∧
      ∀ k, k < n → ¬ |f (newtonIter f df x (k + 1))| < eps := by
  intro n
  induction n with
  | zero =>
      intro x e _ h
      simp only [newtonAux, Except.error.injEq] at h
      exact ⟨h.symm, fun k hk => absurd hk (Nat.not_lt_zero k)⟩
  | succ n ih =>
      intro x e hdf h
      have hdx : df x ≠ 0 := by
        have h0 := hdf 0 (Nat.succ_pos n)
        simpa [newtonIter] using h0
      simp only [newtonAux] at h
      rw [if_neg hdx] at h
      split_ifs at h with h1
      obtain ⟨he, hmin⟩ := ih _ _ (fun k hk => by
        rw [newtonIter_shift]
        exact hdf (k + 1) (Nat.succ_lt_succ hk)) h
      refine ⟨?_, ?_⟩
      · rw [he, newtonIter_shift]
      · intro k hk
        rcases k with _ | k
        · have h1' : newtonIter f df x 1 = x - f x / df x := by simp [newtonIter]
          rw [h1']
          exact h1
        · have := hmin k (Nat.lt_of_succ_lt_succ hk)
          rw [newtonIter_shift] at this
          exact this

/-- C2 counterexample: with `df ≡ 0` the very first update divides by zero,
so the call raises `ZeroDivisionError` — not a ConvergenceFailure — even
though no updated iterate meets the tolerance. -/
theorem newton_raphson_zero_division_cex :
    newton_raphson (fun _ : ℚ => 1) (fun _ : ℚ => 0) 0 (1/2) 1 = .error .zeroDivision ∧
    Err.cls .zeroDivision ≠ .convergenceError ∧
    ¬ |(fun _ : ℚ => (1 : ℚ)) (newtonIter (fun _ : ℚ => 1) (fun _ : ℚ => 0) 0 1)| < 1/2 := by
  refine ⟨by decide, by decide, ?_⟩
  norm_num [abs_lt]

/-- C2 (amended): provided `df` is nonzero at the first `maxIts` iterates
(no division by zero occurs), `newton_raphson` performs at most `maxIts`
updates, returns the first updated iterate whose residual beats the
tolerance, and otherwise raises a ConvergenceError carrying the last
iterate and the iteration budget. -/
theorem newton_raphson_first_hit_spec (f df : ℚ → ℚ) (x0 eps : ℚ) (maxIts : ℕ)
    (heps : 0 < eps) (hM : 1 ≤ maxIts)
    (hdf : ∀ k, k < maxIts → df (newtonIter f df x0 k) ≠ 0) :
    (∀ y, newton_raphson f df x0 eps maxIts = .ok y →
        ∃ k, k < maxIts ∧ y = newtonIter f df x0 (k + 1) ∧ |f y| < eps ∧
          ∀ j, j < k → ¬ |f (newtonIter f df x0 (j + 1))| < eps) ∧
    ((∃ e, newton_raphson f df x0 eps maxIts = .error e) ↔
        ∀ k, k < maxIts → ¬ |f (newtonIter f df x0 (k + 1))| < eps) ∧
    (∀ e, newton_raphson f df x0 eps maxIts = .error e →
        e = .convergenceNear (newtonIter f df x0 maxIts) maxIts) := by
  refine ⟨fun y h => newtonAux_ok f df eps maxIts maxIts x0 y h, ⟨?_, ?_⟩, ?_⟩
  · rintro ⟨e, he⟩
    exact (newtonAux_error f df eps maxIts maxIts x0 e hdf he).2
  · intro hall
    cases hres : newton_raphson f df x0 eps maxIts with
    | ok y =>
        obtain ⟨k, hk, _, ht, _⟩ := newtonAux_ok f df eps maxIts maxIts x0 y hres
        subst_vars
        exact absurd ht (hall k hk)
    | error e => exact ⟨e, rfl⟩
  · intro e he
    exact (newtonAux_error f df eps maxIts maxIts x0 e hdf he).1

/-- Witness for C2 (amended): `f = id`, `df ≡ 1`, `x0 = 5`, `eps = 1`,
`maxIts = 2` converges at the first updated iterate. -/
theorem newton_raphson_first_hit_spec_witness :
    ∃ k, k < 2 ∧ (0 : ℚ) = newtonIter (fun x : ℚ => x) (fun _ : ℚ => 1) 5 (k + 1) ∧
      |(fun x : ℚ => x) (0 : ℚ)| < 1 ∧
      ∀ j, j < k →
        ¬ |(fun x : ℚ => x) (newtonIter (fun x : ℚ => x) (fun _ : ℚ => 1) 5 (j + 1))| < 1 :=
  (newton_raphson_first_hit_spec (fun x => x) (fun _ => 1) 5 1 2 (by norm_num) (by norm_num)
      (fun k _ => one_ne_zero)).1 0 (by norm_num [newton_raphson, newtonAux, abs_lt])

theorem newtonAuxC_count (f df : ℚ → ℚ) (eps : ℚ) (M : ℕ) : ∀ (n : ℕ) (x : ℚ) (c : ℕ),
    (newtonAuxC f df eps M x n c).2 ≤ c + 3 * n := by
  intro n
  induction n with
  | zero =>
      intro x c
      simp [newtonAuxC]
  | succ n ih =>
      intro x c
      simp only [newtonAuxC]
      split_ifs with h0 h1
      · show c + 2 ≤ c + 3 * (n + 1)
        omega
      · show c + 3 ≤ c + 3 * (n + 1)
        omega
      · calc (newtonAuxC f df eps M (x - f x / df x) n (c + 3)).2
            ≤ c + 3 + 3 * n := ih _ _
          _ ≤ c + 3 * (n + 1) := by omega

theorem newtonAuxC_fst (f df : ℚ → ℚ) (eps : ℚ) (M : ℕ) : ∀ (n : ℕ) (x : ℚ) (c : ℕ),
    (newtonAuxC f df eps M x n c).1 = newtonAux f df eps M x n := by
  intro n
  induction n with
  | zero =>
      intro x c
      simp [newtonAuxC, newtonAux]
  | succ n ih =>
      intro x c
      simp only [newtonAuxC, newtonAux]
      split_ifs with h0 h1
      · rfl
      · rfl
      · exact ih _ _

/-- C9 counterexample: a single Newton iteration already makes three
invocations of `f`/`df` combined (`f(x_0)`, `df(x_0)` for the update and
`f(x_0)` again for the tolerance test), exceeding the claimed `2*maxIts`
bound at `maxIts = 1`. -/
theorem newton_call_count_exceeds_two_per_iteration :
    (newton_raphsonC (fun x : ℚ => x) (fun _ : ℚ => 1) 5 1 1).2 = 3 ∧
    ¬ (newton_raphsonC (fun x : ℚ => x) (fun _ : ℚ => 1) 5 1 1).2 ≤ 2 * 1 := by
  constructor
  · norm_num [newton_raphsonC, newtonAuxC, abs_lt]
  · norm_num [newton_raphsonC, newtonAuxC, abs_lt]

/-- C9 (amended): each iteration invokes `f` twice and `df` once, so a call
to `newton_raphson` makes at most `3*maxIts` invocations of `f` and `df`
combined; the instrumented run computes the same result as the solver. -/
theorem newton_call_count_le_three_maxIts (f df : ℚ → ℚ) (x0 eps : ℚ) (M : ℕ) :
    (newton_raphsonC f df x0 eps M).2 ≤ 3 * M ∧
    (newton_raphsonC f df x0 eps M).1 = newton_raphson f df x0 eps M := by
  constructor
  · simpa using newtonAuxC_count f df eps M M x0 0
  · exact newtonAuxC_fst f df eps M M x0 0

theorem bisectAuxT_fst (f : ℚ → ℚ) (eps : ℚ) (M : ℕ) : ∀ (n : ℕ) (a b : ℚ) (t : List ℚ),
    (bisectAuxT f eps M a b n t).1 = bisectAux f eps M a b n := by
  intro n
  induction n with
  | zero =>
      intro a b t
      simp [bisectAuxT, bisectAux]
  | succ n ih =>
      intro a b t
      simp only [bisectAuxT, bisectAux]
      split_ifs with h1 h2 h3
      · rfl
      · exact ih _ _ _
      · exact ih _ _ _
      · exact ih _ _ _

theorem bisectAuxT_trace_extends (f : ℚ → ℚ) (eps : ℚ) (M : ℕ) :
    ∀ (n : ℕ) (a b : ℚ) (t : List ℚ), ∃ t', (bisectAuxT f eps M a b n t).2 = t ++ t' := by
  intro n
  induction n with
  | zero =>
      intro a b t
      exact ⟨[], by simp [bisectAuxT]⟩
  | succ n ih =>
      intro a b t
      simp only [bisectAuxT]
      split_ifs with h1 h2 h3
      · exact ⟨[(a + b) / 2], rfl⟩
      · obtain ⟨t', ht⟩ := ih ((a + b) / 2) b (t ++ [(a + b) / 2, (a + b) / 2, a])
        exact ⟨[(a + b) / 2, (a + b) / 2, a] ++ t', by rw [ht, List.append_assoc]⟩
      · obtain ⟨t', ht⟩ :=
          ih a ((a + b) / 2) (t ++ [(a + b) / 2, (a + b) / 2, a, (a + b) / 2, a])
        exact ⟨[(a + b) / 2, (a + b) / 2, a, (a + b) / 2, a] ++ t',
          by rw [ht, List.append_assoc]⟩
      · obtain ⟨t', ht⟩ := ih a b (t ++ [(a + b) / 2, (a + b) / 2, a, (a + b) / 2, a])
        exact ⟨[(a + b) / 2, (a + b) / 2, a, (a + b) / 2, a] ++ t',
          by rw [ht, List.append_assoc]⟩

/-- C4: the non-bracketing test `f(x_0)*f(x_1) > 0` is evaluated exactly
once, up front — a failing check returns InvalidBracket immediately after
exactly the two evaluations `f(x_0)`, `f(x_1)` and performs no iteration; a
passing check hands over to the loop, whose trace begins with those same
two up-front evaluations, and no loop state can ever raise InvalidBracket. -/
theorem bisection_precondition_once (f : ℚ → ℚ) (x0 x1 eps : ℚ) (M : ℕ) :
    (f x0 * f x1 > 0 →
        bisectionT f x0 x1 eps M = (.error .invalidBracket, [x0, x1])) ∧
    (¬ f x0 * f x1 > 0 →
        (bisectionT f x0 x1 eps M).1 = bisectAux f eps M x0 x1 M ∧
        ∃ t, (bisectionT f x0 x1 eps M).2 = x0 :: x1 :: t) ∧
    (∀ (a b : ℚ) (n : ℕ), bisectAux f eps M a b n ≠ .error .invalidBracket) := by
  refine ⟨?_, ?_, ?_⟩
  · intro h
    simp [bisectionT, h]
  · intro h
    constructor
    · simp only [bisectionT, if_neg h]
      exact bisectAuxT_fst f eps M M x0 x1 [x0, x1]
    · simp only [bisectionT, if_neg h]
      obtain ⟨t', ht⟩ := bisectAuxT_trace_extends f eps M M x0 x1 [x0, x1]
      exact ⟨t', by rw [ht]; rfl⟩
  · intro a b n
    induction n generalizing a b with
    | zero => simp [bisectAux]
    | succ n ih =>
        simp only [bisectAux]
        split_ifs with h1 h2 h3
        · simp
        · exact ih _ _
        · exact ih _ _
        · exact ih _ _

/-- Witness for C4: same-sign endpoints (`f ≡ 1` on `[2, 3]`) fail
immediately with exactly two evaluations; and no loop state of a bracketing
run can raise InvalidBracket. -/
theorem bisection_precondition_once_witness :
    bisectionT (fun _ : ℚ => 1) 2 3 1 5 = (.error .invalidBracket, [2, 3]) ∧
    bisectAux (fun x : ℚ => x) 1 5 (-1) 1 3 ≠ .error .invalidBracket :=
  ⟨(bisection_precondition_once (fun _ : ℚ => 1) 2 3 1 5).1 (by norm_num),
    (bisection_precondition_once (fun x : ℚ => x) (-1) 1 1 5).2.2 (-1) 1 3⟩

/-- C3: when `newton_raphson` succeeds, `solve` returns exactly its result
and the `bisection` fallback is never attempted; conversely the fallback
runs only after a failure of `newton_raphson` whose class is
`ConvergenceError`. -/
theorem solve_newton_success_no_bisection (f df : ℚ → ℚ) (x0 x1 eps : ℚ)
    (mN mB : ℕ) :
    (∀ y, newton_raphson f df x0 eps mN = .ok y →
        solveT f df x0 x1 eps mN mB = (.ok y, false) ∧
        solve f df x0 x1 eps mN mB = .ok y) ∧
    ((solveT f df x0 x1 eps mN mB).2 = true →
        ∃ e, newton_raphson f df x0 eps mN = .error e ∧ e.cls = .convergenceError) := by
  constructor
  · intro y h
    have hT : solveT f df x0 x1 eps mN mB = (.ok y, false) := by
      simp [solveT, h]
    exact ⟨hT, by rw [solve, hT]⟩
  · intro h
    cases hN : newton_raphson f df x0 eps mN with
    | ok y => simp [solveT, hN] at h
    | error e =>
        by_cases hc : e.cls = .convergenceError
        · exact ⟨e, rfl, hc⟩
        · simp [solveT, hN, hc] at h

/-- Witness for C3: Newton on `f = id` from `x0 = 5` succeeds, so `solve`
returns its result with the fallback flag still false. -/
theorem solve_newton_success_no_bisection_witness :
    solveT (fun x : ℚ => x) (fun _ : ℚ => 1) 5 7 1 2 2 = (.ok 0, false) ∧
    solve (fun x : ℚ => x) (fun _ : ℚ => 1) 5 7 1 2 2 = .ok 0 :=
  (solve_newton_success_no_bisection (fun x => x) (fun _ => 1) 5 7 1 2 2).1 0
    (by norm_num [newton_raphson, newtonAux, abs_lt])

/-- C8 counterexample: when Newton-Raphson fails to converge and the
bracket is non-bracketing, `solve` raises the incompatible-fallback error,
but its Python class equals that of a plain InvalidBracket (both are
`ValueError`), so the two situations are not distinct error kinds. -/
theorem solve_incompatible_fallback_same_class_cex :
    solve (fun _ : ℚ => 1) (fun _ : ℚ => 1) 0 5 (1/2) 1 1 = .error .incompatibleFallback ∧
    bisection (fun _ : ℚ => 1) 0 5 (1/2) 1 = .error .invalidBracket ∧
    Err.cls .incompatibleFallback = Err.cls .invalidBracket := by
  refine ⟨?_, by norm_num [bisection], by decide⟩
  norm_num [solve, solveT, newton_raphson, newtonAux, bisection, abs_lt, Err.cls]
  decide

/-- C8 (amended): after a ConvergenceError from Newton-Raphson and an
InvalidBracket from `bisection`, `solve` raises the distinct
incompatible-fallback error value — a different exception than plain
InvalidBracket, but of the same Python class (`ValueError`), so callers
can tell the two situations apart only by message, not by class. -/
theorem solve_incompatible_fallback_distinct_value (f df : ℚ → ℚ) (x0 x1 eps : ℚ)
    (mN mB : ℕ) (e : Err)
    (hN : newton_raphson f df x0 eps mN = .error e) (hcls : e.cls = .convergenceError)
    (hB : bisection f x0 x1 eps mB = .error .invalidBracket) :
    solve f df x0 x1 eps mN mB = .error .incompatibleFallback ∧
    Err.incompatibleFallback ≠ Err.invalidBracket ∧
    Err.cls .incompatibleFallback = Err.cls .invalidBracket := by
  refine ⟨?_, by decide, by decide⟩
  simp only [solve, solveT, hN, hB]
  rw [if_pos hcls]
  decide

/-- Witness for C8 (amended): `f ≡ 1` from `x0 = 3` with bracket `[3, 5]`. -/
theorem solve_incompatible_fallback_distinct_value_witness :
    solve (fun _ : ℚ => 1) (fun _ : ℚ => 1) 3 5 (1/2) 1 1 = .error .incompatibleFallback ∧
    Err.incompatibleFallback ≠ Err.invalidBracket ∧
    Err.cls .incompatibleFallback = Err.cls .invalidBracket :=
  solve_incompatible_fallback_distinct_value (fun _ => 1) (fun _ => 1) 3 5 (1/2) 1 1
    (.convergenceNear 2 1) (by norm_num [newton_raphson, newtonAux, abs_lt]) rfl
    (by norm_num [bisection])

/-- C7: an exception whose Python class is neither `ConvergenceError` nor
`ValueError` (the class of InvalidBracket), raised by `f` or `df` during
either phase of `solve`, propagates to the caller unmodified — in
particular it is never converted into the combined-failure or
incompatible-fallback errors. -/
theorem solve_other_exceptions_propagate (f df : ℚ → Except Exn ℚ) (x0 x1 eps : ℚ)
    (mN mB : ℕ) :
    (∀ e, newton_raphsonE f df x0 eps mN = .error e →
        Exn.cls e ≠ .convergenceError → Exn.cls e ≠ .valueError →
        solveE f df x0 x1 eps mN mB = .error e) ∧
    (∀ e e', newton_raphsonE f df x0 eps mN = .error e →
        Exn.cls e = .convergenceError →
        bisectionE f x0 x1 eps mB = .error e' →
        Exn.cls e' ≠ .convergenceError → Exn.cls e' ≠ .valueError →
        solveE f df x0 x1 eps mN mB = .error e') := by
  constructor
  · intro e hN hc _
    simp [solveE, hN, hc]
  · intro e e' hN hc hB hc1 hc2
    simp [solveE, hN, hc, hB, hc1, hc2]

/-- Witness for C7: a function raising a foreign exception class makes the
exception surface unmodified from `solve`, both when it arises during the
Newton phase and when it arises during the bisection fallback. -/
theorem solve_other_exceptions_propagate_witness :
    solveE (fun _ : ℚ => .error (.user (.otherClass 3) 7))
        (fun _ : ℚ => .error (.user (.otherClass 3) 7)) 0 1 1 1 1 =
      .error (.user (.otherClass 3) 7) ∧
    solveE (fun x : ℚ => if x = 9 then .error (.user (.otherClass 5) 0) else .ok 1)
        (fun _ : ℚ => .ok 1) 0 9 (1/2) 1 1 =
      .error (.user (.otherClass 5) 0) :=
  ⟨(solve_other_exceptions_propagate (fun _ : ℚ => .error (.user (.otherClass 3) 7))
        (fun _ : ℚ => .error (.user (.otherClass 3) 7)) 0 1 1 1 1).1
      (.user (.otherClass 3) 7) rfl (by decide) (by decide),
    (solve_other_exceptions_propagate
        (fun x : ℚ => if x = 9 then .error (.user (.otherClass 5) 0) else .ok 1)
        (fun _ : ℚ => .ok 1) 0 9 (1/2) 1 1).2
      (.solver (.convergenceNear (-1) 1)) (.user (.otherClass 5) 0)
      (by norm_num [newton_raphsonE, newtonAuxE, abs_lt]) rfl
      (by norm_num [bisectionE]) (by decide) (by decide)⟩
